import Mathlib

/-!
Verification of the katago-mcp engine client against its design spec.

The Lean definitions below are a shallow embedding of the Python sources:
`src/sgf_reader.py` (coordinate translation, game state) and
`src/katago_client.py` (protocol codec, response router, pending-request
table, engine-client orchestration).  JSON numbers are modelled as `Rat`
(the decoder only copies them, never computes with them), JSON integers as
`Int`, optional JSON fields as `Option`, and Python dictionaries keyed by
request identifier as association lists.  The effects of the reader thread,
of `_send_query` and of `_wait_for_response` on the shared tables are
modelled as pure state-passing functions; the outcome of the external
events they react to (a write succeeding, a wait handle being signalled
within the timeout) are explicit boolean parameters.
-/

namespace KataGoMCP

/-- Game state, embedding the fields of `sgf_reader.GameState` that the
client reads: board size, the move list (colour, optional (row, col)),
current player, komi and rules. -/
structure GameState where
  board_size : Nat := 19
  moves : List (String × Option (Nat × Nat)) := []
  current_player : String := "B"
  komi : Rat := 15/2
  rules : String := "chinese"
deriving Repr, DecidableEq

/-- Candidate move record, embedding `katago_client.MoveInfo`. -/
structure MoveInfo where
  move : String
  visits : Int
  winrate : Rat
  score_lead : Rat
  pv : List String
  prior : Rat := 0
  utility : Rat := 0
deriving Repr, DecidableEq

/-- Raw per-move object of a KataGo reply (`moveInfos[]` entry): every
field optional, mirroring the `dict.get` accesses in `_parse_response`. -/
structure RawMoveInfo where
  move : Option String := none
  visits : Option Int := none
  winrate : Option Rat := none
  scoreLead : Option Rat := none
  pv : Option (List String) := none
  prior : Option Rat := none
  utility : Option Rat := none
deriving Repr, DecidableEq

/-- Raw `rootInfo` object of a KataGo reply: every field optional. -/
structure RawRootInfo where
  winrate : Option Rat := none
  scoreLead : Option Rat := none
  visits : Option Int := none
deriving Repr, DecidableEq

/-- Raw KataGo reply object as read off the wire: each protocol field may
be absent, mirroring the `response.get` accesses in `_parse_response` and
`_read_responses`. -/
structure RawResponse where
  id : Option String := none
  rootInfo : Option RawRootInfo := none
  moveInfos : Option (List RawMoveInfo) := none
  ownership : Option (List Rat) := none
  turnNumber : Option Int := none
deriving Repr, DecidableEq

/-- Analysis result, embedding `katago_client.AnalysisResult`. -/
structure AnalysisResult where
  id : String
  turn_number : Int
  current_player : String
  root_winrate : Rat
  root_score_lead : Rat
  root_visits : Int
  move_infos : List MoveInfo := []
  ownership : Option (List Rat) := none
  raw_response : Option RawResponse := none
deriving Repr, DecidableEq

/-- The loop body of `_parse_response` building one `MoveInfo` from a raw
`moveInfos[]` entry, with the defaults of the Python `mi.get` calls. -/
def parseMoveInfo (mi : RawMoveInfo) : MoveInfo where
  move := mi.move.getD ""
  visits := mi.visits.getD 0
  winrate := mi.winrate.getD (1/2)
  score_lead := mi.scoreLead.getD 0
  pv := mi.pv.getD []
  prior := mi.prior.getD 0
  utility := mi.utility.getD 0

/-- The comparator of `move_infos.sort(key=lambda x: x.visits, reverse=True)`:
`a` may come before `b` iff `a` has at least as many visits. -/
def visitsGe (a b : MoveInfo) : Prop := b.visits ≤ a.visits

instance : DecidableRel visitsGe := fun a b => inferInstanceAs (Decidable (b.visits ≤ a.visits))

instance : IsTotal MoveInfo visitsGe := ⟨fun a b => le_total b.visits a.visits⟩

instance : IsTrans MoveInfo visitsGe :=
  ⟨fun _ _ _ hab hbc => le_trans hbc hab⟩

/-- `KataGoClient._parse_response`: decode a raw reply into an
`AnalysisResult`.  The move list is rebuilt from `moveInfos` (defaulting
missing fields), then stably sorted by visit count descending — Python's
stable `list.sort` with `reverse=True` coincides with insertion sort by
the `visitsGe` comparator.  Root statistics come from `rootInfo` with
neutral defaults. -/
def parseResponse (response : RawResponse) (state : GameState) : AnalysisResult :=
  let root_info := response.rootInfo.getD {}
  let move_infos_raw := response.moveInfos.getD []
  let move_infos := move_infos_raw.map parseMoveInfo
  let move_infos := move_infos.insertionSort visitsGe
  { id := response.id.getD ""
    turn_number := response.turnNumber.getD state.moves.length
    current_player := state.current_player
    root_winrate := root_info.winrate.getD (1/2)
    root_score_lead := root_info.scoreLead.getD 0
    root_visits := root_info.visits.getD 0
    move_infos := move_infos
    ownership := response.ownership
    raw_response := some response }

/-- The GTP column letters of `sgf_reader.py`: `"ABCDEFGHJKLMNOPQRST"`,
skipping `I`. -/
def gtp_letters : List Char := "ABCDEFGHJKLMNOPQRST".toList

/-- `sgf_reader.coord_to_gtp`: board (row, col) with top-origin rows to a
GTP point string — column letter (skipping `I`) followed by the row number
counted from the bottom, `board_size - row`. -/
def coord_to_gtp (row col : Nat) (board_size : Nat := 19) : String :=
  String.mk [gtp_letters.getD col 'A'] ++ Nat.repr (board_size - row)

/-- Model of Python `int()` applied to the digit substring of a GTP point:
accumulate decimal digits, `none` when empty or a character is not a digit
(where `int()` raises `ValueError`; the sign/whitespace forms `int()` also
accepts never arise from GTP points). -/
def parseNatCharsAux : Nat → List Char → Option Nat
  | acc, [] => some acc
  | acc, c :: cs => if c.isDigit then parseNatCharsAux (10 * acc + (c.toNat - 48)) cs else none

/-- See `parseNatCharsAux`; Python `int("")` raises, hence `none` on `[]`. -/
def parseNatChars : List Char → Option Nat
  | [] => none
  | cs => parseNatCharsAux 0 cs

/-- `sgf_reader.gtp_to_coord`: GTP point string back to (row, col).  The
first character is uppercased and looked up in the letter table
(`str.index` raising models as `none`), the rest parses as the bottom-origin
row number `n`, and the result row is `board_size - n` (an `Int`, since the
Python subtraction may go negative on out-of-range input). -/
def gtp_to_coord (gtp_point : String) (board_size : Nat := 19) : Option (Int × Nat) :=
  match gtp_point.toList with
  | [] => none
  | c :: rest =>
    match gtp_letters.indexOf? c.toUpper, parseNatChars rest with
    | some col, some n => some ((board_size : Int) - n, col)
    | _, _ => none

/-- Python-dict association-list get: first binding of the key, `none` when
absent. -/
def dictGet {α : Type} (t : List (String × α)) (k : String) : Option α :=
  match t with
  | [] => none
  | (k₁, v) :: rest => if k₁ = k then some v else dictGet rest k

/-- Python-dict association-list item assignment `t[k] = v`: replace the
binding in place, or append when the key is new. -/
def dictSet {α : Type} (t : List (String × α)) (k : String) (v : α) : List (String × α) :=
  match t with
  | [] => [(k, v)]
  | (k₁, v₁) :: rest => if k₁ = k then (k, v) :: rest else (k₁, v₁) :: dictSet rest k v

/-- Python-dict deletion `del t[k]`: drop the binding of the key. -/
def dictDel {α : Type} (t : List (String × α)) (k : String) : List (String × α) :=
  match t with
  | [] => []
  | (k₁, v₁) :: rest => if k₁ = k then dictDel rest k else (k₁, v₁) :: dictDel rest k

/-- Python `str.lower()` as used on rules names: lowercase each character
(`Char.toLower` lowercases ASCII letters, which covers every rules name in
the whitelist). -/
def pyLower (s : String) : String := String.mk (s.toList.map Char.toLower)

/-- The fixed `rules_map` whitelist of `KataGoClient._build_query`. -/
def rules_map : List (String × String) :=
  [("chinese", "chinese"), ("japanese", "japanese"), ("korean", "korean"),
   ("aga", "aga"), ("nz", "nz"), ("tromp-taylor", "tromp-taylor"),
   ("stone-scoring", "stone-scoring")]

/-- Outbound analysis query, embedding the dictionary built by
`KataGoClient._build_query`. -/
structure Query where
  id : String
  moves : List (String × String)
  initialStones : List (String × String) := []
  rules : String
  komi : Rat
  boardXSize : Nat
  boardYSize : Nat
  analyzeTurns : List Nat
  maxVisits : Nat
  analysisPVLen : Nat
  includeOwnership : Bool
  includePolicy : Bool
deriving Repr, DecidableEq

/-- The move-conversion loop body of `_build_query`: a pass becomes the
sentinel `"pass"`, a coordinate goes through `coord_to_gtp`. -/
def moveToWire (board_size : Nat) : String × Option (Nat × Nat) → String × String
  | (color, none) => (color, "pass")
  | (color, some (r, c)) => (color, coord_to_gtp r c board_size)

/-- `KataGoClient._build_query` (the generated UUID is the parameter
`qid`): wire moves, empty initial stones, rules case-normalized through
`rules_map` defaulting to `"chinese"`, komi/board sizes from the state, and
`analyzeTurns = [len(moves)]`. -/
def buildQuery (state : GameState) (qid : String) (max_visits : Nat := 100)
    (include_ownership : Bool := true) (include_policy : Bool := false)
    (analysis_pv_len : Nat := 10) : Query :=
  let moves := state.moves.map (moveToWire state.board_size)
  let rules := (dictGet rules_map (pyLower state.rules)).getD "chinese"
  { id := qid
    moves := moves
    initialStones := []
    rules := rules
    komi := state.komi
    boardXSize := state.board_size
    boardYSize := state.board_size
    analyzeTurns := [moves.length]
    maxVisits := max_visits
    analysisPVLen := analysis_pv_len
    includeOwnership := include_ownership
    includePolicy := include_policy }

/-- Outcome of the validation phase of `KataGoClient.start`: either a
`FileNotFoundError` carrying its message, or the engine command line that
is handed to `subprocess.Popen`. -/
inductive StartOutcome where
  | fileNotFound (msg : String)
  | launch (cmd : List String)
deriving Repr, DecidableEq

/-- The validation phase of `KataGoClient.start`: the executable path and
the model path are checked for existence (in that order) and a missing one
raises `FileNotFoundError` naming it; otherwise the process command line is
assembled and launched.  `pathExists` abstracts `os.path.exists`. -/
def start (pathExists : String → Bool) (katago_path model_path config_path : String)
    (analysis_threads : Nat) : StartOutcome :=
  if ¬ pathExists katago_path then
    .fileNotFound ("KataGo executable not found: " ++ katago_path)
  else if ¬ pathExists model_path then
    .fileNotFound ("KataGo model not found: " ++ model_path)
  else
    .launch [katago_path, "analysis", "-model", model_path, "-config", config_path,
      "-analysis-threads", toString analysis_threads]

/-- Outcome of `json.loads` on one non-blank stdout line: a
`json.JSONDecodeError`, or a parsed reply object. -/
inductive Line where
  | invalid
  | valid (response : RawResponse)
deriving Repr, DecidableEq

/-- The mutable shared state of `KataGoClient` that the claims concern:
the pending-request table `pending_requests` (request id → wait handle,
modelled by the `Bool` the handle's `set()` flips), the raw-reply cache
`responses`, and the captured `_stderr_lines`. -/
structure ClientState where
  pending_requests : List (String × Bool) := []
  responses : List (String × RawResponse) := []
  stderr_lines : List String := []
deriving Repr, DecidableEq

/-- One iteration of the stdout reader loop `_read_responses` on a
non-blank line already read from the pipe.  A JSON decode failure is
discarded (`continue`).  A parsed object with a truthy `id` is stored in
the reply cache and, when that id is pending, its wait handle is signalled;
an absent or empty (falsy) `id` leaves everything untouched. -/
def processLine (st : ClientState) (line : Line) : ClientState :=
  match line with
  | .invalid => st
  | .valid response =>
    match response.id with
    | none => st
    | some request_id =>
      if request_id = "" then st
      else
        let st₁ := { st with responses := dictSet st.responses request_id response }
        match dictGet st₁.pending_requests request_id with
        | some _ =>
          { st₁ with pending_requests := dictSet st₁.pending_requests request_id true }
        | none => st₁

/-- The reader loop over a stream of lines — `processLine` folded from the
first line read to the last. -/
def readLines (st : ClientState) (lines : List Line) : ClientState :=
  lines.foldl processLine st

/-- The stderr tail attached to error messages:
`"\n".join(self._stderr_lines[-20:]) if self._stderr_lines else ""`. -/
def stderrTail (stderr_lines : List String) : String :=
  if stderr_lines = [] then ""
  else String.intercalate "\n" (stderr_lines.drop (stderr_lines.length - 20))

/-- `KataGoClient._send_query` from the point the request id is fixed (the
generated UUID is the parameter `request_id`; the liveness/restart preamble
is outside this model).  A wait handle is registered in the pending table,
then the query line is written; `writeOk` abstracts whether the write
raises `BrokenPipeError`/`OSError`.  On failure the pending entry is
deleted and the call raises a message carrying the recent stderr tail. -/
def sendQuery (st : ClientState) (request_id : String) (writeOk : Bool) :
    ClientState × Except String String :=
  let st₁ := { st with pending_requests := dictSet st.pending_requests request_id false }
  if writeOk then (st₁, .ok request_id)
  else
    let error_msg :=
      "KataGo process died (broken pipe). Recent stderr:\n" ++ stderrTail st.stderr_lines
    ({ st₁ with pending_requests := dictDel st₁.pending_requests request_id },
      .error error_msg)

/-- `KataGoClient._wait_for_response`: look up the wait handle; an unknown
id returns `none` at once.  `signaled` abstracts whether `event.wait(timeout)`
observed the handle within the timeout bound; if so the cached raw reply is
popped and returned, otherwise `none` is returned with nothing touched. -/
def waitForResponse (st : ClientState) (request_id : String) (signaled : Bool) :
    ClientState × Option RawResponse :=
  match dictGet st.pending_requests request_id with
  | none => (st, none)
  | some _ =>
    if signaled then
      ({ st with responses := dictDel st.responses request_id },
        dictGet st.responses request_id)
    else (st, none)

/-- `KataGoClient.analyze_position` orchestration: build the query, send
it (a raised broken-pipe error propagates), wait for the reply; a timeout
yields `none`, a reply is decoded by `parseResponse`. -/
def analyzePosition (st : ClientState) (state : GameState) (qid : String)
    (writeOk signaled : Bool) (max_visits : Nat := 100) (include_ownership : Bool := true)
    (include_policy : Bool := false) (analysis_pv_len : Nat := 10) :
    ClientState × Except String (Option AnalysisResult) :=
  let query := buildQuery state qid max_visits include_ownership include_policy analysis_pv_len
  match sendQuery st query.id writeOk with
  | (st₁, .error e) => (st₁, .error e)
  | (st₁, .ok request_id) =>
    match waitForResponse st₁ request_id signaled with
    | (st₂, none) => (st₂, .ok none)
    | (st₂, some response) => (st₂, .ok (some (parseResponse response state)))

end KataGoMCP

namespace KataGoMCP

/-- A `dictGet` hit returns one of the stored values. -/
theorem dictGet_mem_values {α : Type} (t : List (String × α)) (k : String) (v : α)
    (h : dictGet t k = some v) : v ∈ t.map Prod.snd := by
  induction t with
  | nil => simp [dictGet] at h
  | cons p rest ih =>
    obtain ⟨k₁, v₁⟩ := p
    by_cases hk : k₁ = k
    · simp [dictGet, hk] at h
      simp [h]
    · simp [dictGet, hk] at h
      exact List.mem_cons_of_mem _ (ih h)

/-- `dictGet` misses exactly the keys not in the table. -/
theorem dictGet_eq_none {α : Type} (t : List (String × α)) (k : String)
    (h : k ∉ t.map Prod.fst) : dictGet t k = none := by
  induction t with
  | nil => rfl
  | cons p rest ih =>
    obtain ⟨k₁, v₁⟩ := p
    rw [List.map_cons, List.mem_cons] at h
    push_neg at h
    have hne : ¬ k₁ = k := fun e => h.1 (by simp [e])
    simp [dictGet, hne, ih h.2]

/-- Reading a key just written returns the written value. -/
theorem dictGet_dictSet_same {α : Type} (t : List (String × α)) (k : String) (v : α) :
    dictGet (dictSet t k v) k = some v := by
  induction t with
  | nil => simp [dictGet, dictSet]
  | cons p rest ih =>
    obtain ⟨k₁, v₁⟩ := p
    by_cases hk : k₁ = k
    · simp [dictGet, dictSet, hk]
    · simp [dictGet, dictSet, hk, ih]

/-- Writing one key leaves every other key's binding unchanged. -/
theorem dictGet_dictSet_ne {α : Type} (t : List (String × α)) (k k' : String) (v : α)
    (h : k' ≠ k) : dictGet (dictSet t k v) k' = dictGet t k' := by
  have hne : ¬ k = k' := fun e => h e.symm
  induction t with
  | nil => simp [dictGet, dictSet, hne]
  | cons p rest ih =>
    obtain ⟨k₁, v₁⟩ := p
    by_cases hk : k₁ = k
    · subst hk
      simp [dictGet, dictSet, hne]
    · simp [dictGet, dictSet, hk, ih]

/-- A deleted key is no longer bound. -/
theorem dictGet_dictDel_same {α : Type} (t : List (String × α)) (k : String) :
    dictGet (dictDel t k) k = none := by
  induction t with
  | nil => rfl
  | cons p rest ih =>
    obtain ⟨k₁, v₁⟩ := p
    by_cases hk : k₁ = k
    · simpa [dictDel, hk] using ih
    · simpa [dictGet, dictDel, hk] using ih

/-- Deleting one key leaves every other key's binding unchanged. -/
theorem dictGet_dictDel_ne {α : Type} (t : List (String × α)) (k k' : String)
    (h : k' ≠ k) : dictGet (dictDel t k) k' = dictGet t k' := by
  induction t with
  | nil => rfl
  | cons p rest ih =>
    obtain ⟨k₁, v₁⟩ := p
    by_cases hk : k₁ = k
    · subst hk
      have hne : ¬ k₁ = k' := fun e => h e.symm
      simp [dictGet, dictDel, hne, ih]
    · by_cases hk' : k₁ = k'
      · subst hk'
        simp [dictGet, dictDel, hk]
      · simp [dictGet, dictDel, hk, hk', ih]

/-- Claim C1: decoding any raw reply yields a candidate-move list sorted by
visit count in descending order (and a permutation of the decoded
`moveInfos` entries), regardless of the order of the raw `moveInfos`. -/
theorem parseResponse_moveInfos_sorted (response : RawResponse) (state : GameState) :
    List.Sorted visitsGe (parseResponse response state).move_infos ∧
      (parseResponse response state).move_infos.Perm
        ((response.moveInfos.getD []).map parseMoveInfo) := by
  constructor
  · exact List.sorted_insertionSort visitsGe _
  · exact List.perm_insertionSort visitsGe _

/-- Claim C2: for every valid board coordinate on a board of size at most
19, translating to a GTP point with `coord_to_gtp` (skipping the column
letter `I` and counting rows from the bottom) and back with `gtp_to_coord`
returns the original (row, col). -/
theorem coord_to_gtp_roundtrip : ∀ bs, bs < 20 → ∀ row, row < bs → ∀ col, col < bs →
    gtp_to_coord (coord_to_gtp row col bs) bs = some ((row : Int), col) := by decide

/-- Witness for `coord_to_gtp_roundtrip` at (row, col) = (3, 15) on a
19×19 board (GTP point Q16). -/
theorem coord_to_gtp_roundtrip_witness :
    gtp_to_coord (coord_to_gtp 3 15 19) 19 = some ((3 : Int), 15) :=
  coord_to_gtp_roundtrip 19 (by decide) 3 (by decide) 15 (by decide)

/-- Claim C3: decoding a reply without `rootInfo` yields the neutral root
defaults (winrate 1/2, score lead 0, visits 0); missing individual
`rootInfo` fields default the same way; and missing per-move numeric fields
default (visits 0, winrate 1/2, score lead 0) — the decoder is total, it
never raises. -/
theorem parseResponse_defaults (response : RawResponse) (state : GameState) :
    (response.rootInfo = none →
      (parseResponse response state).root_winrate = 1/2 ∧
        (parseResponse response state).root_score_lead = 0 ∧
        (parseResponse response state).root_visits = 0) ∧
    (∀ ri, response.rootInfo = some ri →
      (ri.winrate = none → (parseResponse response state).root_winrate = 1/2) ∧
        (ri.scoreLead = none → (parseResponse response state).root_score_lead = 0) ∧
        (ri.visits = none → (parseResponse response state).root_visits = 0)) ∧
    (∀ mi : RawMoveInfo,
      (mi.visits = none → (parseMoveInfo mi).visits = 0) ∧
        (mi.winrate = none → (parseMoveInfo mi).winrate = 1/2) ∧
        (mi.scoreLead = none → (parseMoveInfo mi).score_lead = 0)) := by
  refine ⟨fun h => ?_, fun ri h => ?_, fun mi => ?_⟩ <;>
    refine ⟨?_, ?_, ?_⟩ <;> simp_all [parseResponse, parseMoveInfo]

/-- Witness for `parseResponse_defaults`: the empty reply object decodes
to the neutral root defaults, and the empty raw move entry decodes to the
neutral move defaults. -/
theorem parseResponse_defaults_witness :
    ((parseResponse {} {}).root_winrate = 1/2 ∧
      (parseResponse {} {}).root_score_lead = 0 ∧
      (parseResponse {} {}).root_visits = 0) ∧
    ((parseMoveInfo {}).visits = 0 ∧
      (parseMoveInfo {}).winrate = 1/2 ∧
      (parseMoveInfo {}).score_lead = 0) :=
  ⟨(parseResponse_defaults {} {}).1 rfl,
    ((parseResponse_defaults {} {}).2.2 {}).1 rfl,
    ((parseResponse_defaults {} {}).2.2 {}).2.1 rfl,
    ((parseResponse_defaults {} {}).2.2 {}).2.2 rfl⟩

/-- Claim C8: `_build_query` case-normalizes the rules string and maps it
through the fixed `rules_map` whitelist — the encoded rules value is always
one of the whitelist's values, a recognized (case-normalized) name maps to
itself, and any unrecognized name encodes to `"chinese"` rather than
failing. -/
theorem buildQuery_rules (state : GameState) (qid : String) (mv : Nat)
    (incl_own incl_pol : Bool) (pl : Nat) :
    (buildQuery state qid mv incl_own incl_pol pl).rules ∈ rules_map.map Prod.snd ∧
    (pyLower state.rules ∈ rules_map.map Prod.fst →
      (buildQuery state qid mv incl_own incl_pol pl).rules = pyLower state.rules) ∧
    (pyLower state.rules ∉ rules_map.map Prod.fst →
      (buildQuery state qid mv incl_own incl_pol pl).rules = "chinese") := by
  have hq : (buildQuery state qid mv incl_own incl_pol pl).rules
      = (dictGet rules_map (pyLower state.rules)).getD "chinese" := rfl
  have hid : ∀ s ∈ rules_map.map Prod.fst, dictGet rules_map s = some s := by decide
  refine ⟨?_, fun h => ?_, fun h => ?_⟩
  · rcases hlook : dictGet rules_map (pyLower state.rules) with _ | v
    · rw [hq, hlook]
      decide
    · rw [hq, hlook]
      exact dictGet_mem_values _ _ _ hlook
  · rw [hq, hid _ h]
    rfl
  · rw [hq, dictGet_eq_none _ _ h]
    rfl

/-- Witness for `buildQuery_rules`: the mixed-case recognized name
`"Tromp-Taylor"` normalizes to itself lowercased, and the unrecognized
name `"weird"` falls back to `"chinese"`. -/
theorem buildQuery_rules_witness :
    (buildQuery { rules := "Tromp-Taylor" } "q" 100 true false 10).rules
        = pyLower "Tromp-Taylor" ∧
    (buildQuery { rules := "weird" } "q" 100 true false 10).rules = "chinese" :=
  ⟨(buildQuery_rules { rules := "Tromp-Taylor" } "q" 100 true false 10).2.1 (by decide),
    (buildQuery_rules { rules := "weird" } "q" 100 true false 10).2.2 (by decide)⟩

/-- Claim C4: when the wait handle is not signalled within the timeout
bound, `_wait_for_response` returns `none` with the state untouched (no
exception — the function is total), hence `analyze_position` returns the
distinguished no-result outcome; and a late-arriving reply processed by the
reader for one identifier leaves every other identifier's pending entry and
cached reply unchanged. -/
theorem analyze_timeout_returns_none (st : ClientState) (state : GameState) (qid : String)
    (mv pl : Nat) (incl_own incl_pol : Bool) (signaled : Bool) (h : signaled = false) :
    (∀ request_id, waitForResponse st request_id signaled = (st, none)) ∧
    (analyzePosition st state qid true signaled mv incl_own incl_pol pl).2 = .ok none ∧
    (∀ response rid rid', response.id = some rid → rid' ≠ rid →
      dictGet (processLine st (.valid response)).pending_requests rid'
          = dictGet st.pending_requests rid' ∧
        dictGet (processLine st (.valid response)).responses rid'
          = dictGet st.responses rid') := by
  subst h
  have hwait : ∀ (s : ClientState) (rid : String), waitForResponse s rid false = (s, none) := by
    intro s rid
    unfold waitForResponse
    rcases dictGet s.pending_requests rid with _ | ev <;> simp
  refine ⟨fun request_id => hwait st request_id, ?_, fun response rid rid' hid hne => ?_⟩
  · simp [analyzePosition, sendQuery, hwait]
  · by_cases hrid : rid = ""
    · simp [processLine, hid, hrid]
    · rcases hp : dictGet st.pending_requests rid with _ | ev <;>
        simp [processLine, hid, hrid, hp, dictGet_dictSet_ne _ _ _ _ hne]

/-- Witness for `analyze_timeout_returns_none`: with one pending request
and a reply that never arrives, `analyze_position` yields the no-result
outcome. -/
theorem analyze_timeout_returns_none_witness :
    (analyzePosition { pending_requests := [("a", false)] } {} "q" true false
        100 true false 10).2 = .ok none :=
  (analyze_timeout_returns_none { pending_requests := [("a", false)] } {} "q"
    100 10 true false false rfl).2.1

/-- Claim C5: an invalid JSON line is discarded and the reader loop keeps
folding over the remaining lines; an invalid line followed by a valid line
carrying a pending identifier still stores the reply in the cache and
signals that identifier's wait handle. -/
theorem reader_malformed_line_resilient (st : ClientState) (response : RawResponse)
    (rid : String) (ev : Bool) (hid : response.id = some rid) (hne : rid ≠ "")
    (hpend : dictGet st.pending_requests rid = some ev) :
    (∀ lines, readLines st (.invalid :: lines) = readLines st lines) ∧
    dictGet (readLines st [.invalid, .valid response]).responses rid = some response ∧
    dictGet (readLines st [.invalid, .valid response]).pending_requests rid = some true := by
  have hstep : processLine st .invalid = st := rfl
  have htwo : readLines st [.invalid, .valid response] = processLine st (.valid response) := by
    simp [readLines, List.foldl, hstep]
  refine ⟨fun lines => by simp [readLines, List.foldl, hstep], ?_, ?_⟩
  · rw [htwo]
    simp [processLine, hid, hne, hpend, dictGet_dictSet_same]
  · rw [htwo]
    simp [processLine, hid, hne, hpend, dictGet_dictSet_same]

/-- Witness for `reader_malformed_line_resilient` at a concrete pending
request `"q1"` fed one malformed line and one valid reply line. -/
theorem reader_malformed_line_resilient_witness :
    dictGet (readLines { pending_requests := [("q1", false)] }
        [.invalid, .valid { id := some "q1" }]).responses "q1" = some { id := some "q1" } ∧
    dictGet (readLines { pending_requests := [("q1", false)] }
        [.invalid, .valid { id := some "q1" }]).pending_requests "q1" = some true :=
  ⟨(reader_malformed_line_resilient { pending_requests := [("q1", false)] }
      { id := some "q1" } "q1" false rfl (by decide) (by decide)).2.1,
    (reader_malformed_line_resilient { pending_requests := [("q1", false)] }
      { id := some "q1" } "q1" false rfl (by decide) (by decide)).2.2⟩

/-- Claim C6: when the write raises a broken pipe, `_send_query` deletes
the pending-request entry it had just registered before raising, and the
raised message carries the recent captured stderr tail. -/
theorem sendQuery_broken_pipe (st : ClientState) (request_id : String) (writeOk : Bool)
    (h : writeOk = false) :
    dictGet (sendQuery st request_id writeOk).1.pending_requests request_id = none ∧
    (sendQuery st request_id writeOk).2 =
      .error ("KataGo process died (broken pipe). Recent stderr:\n"
        ++ stderrTail st.stderr_lines) := by
  subst h
  exact ⟨by simp [sendQuery, dictGet_dictDel_same], rfl⟩

/-- Witness for `sendQuery_broken_pipe` on a client with captured stderr. -/
theorem sendQuery_broken_pipe_witness :
    dictGet (sendQuery { stderr_lines := ["boom"] } "q1" false).1.pending_requests "q1"
        = none ∧
    (sendQuery { stderr_lines := ["boom"] } "q1" false).2 =
      .error ("KataGo process died (broken pipe). Recent stderr:\n"
        ++ stderrTail ["boom"]) :=
  sendQuery_broken_pipe { stderr_lines := ["boom"] } "q1" false rfl

/-- Claim C7 counterexample: after a complete request/response cycle —
register-and-send, reply routed by the reader, reply consumed by the waiter
— the pending-request table still holds the entry for `"q1"`, so the entry
is not removed once the waiter has consumed the reply. -/
theorem pending_entry_not_removed_after_consume :
    (waitForResponse (processLine (sendQuery {} "q1" true).1
        (.valid { id := some "q1" })) "q1" true).2 = some { id := some "q1" } ∧
    dictGet (waitForResponse (processLine (sendQuery {} "q1" true).1
        (.valid { id := some "q1" })) "q1" true).1.pending_requests "q1" = some true := by
  decide

/-- Claim C7 (amended): the pending-table entry is created immediately
before the query is transmitted and is deleted when the write fails; but
when the waiter consumes the reply, only the reply-cache entry is removed —
the pending-table entry is left in place, so its lifetime is not bounded by
the request/response cycle. -/
theorem pending_entry_lifetime (st : ClientState) (request_id : String) :
    dictGet (sendQuery st request_id true).1.pending_requests request_id = some false ∧
    (sendQuery st request_id true).2 = .ok request_id ∧
    (∀ st₂ ev, dictGet st₂.pending_requests request_id = some ev →
      (waitForResponse st₂ request_id true).1.responses = dictDel st₂.responses request_id ∧
        (waitForResponse st₂ request_id true).1.pending_requests = st₂.pending_requests) ∧
    dictGet (sendQuery st request_id false).1.pending_requests request_id = none := by
  refine ⟨dictGet_dictSet_same _ _ _, rfl, fun st₂ ev h => ?_,
    by simp [sendQuery, dictGet_dictDel_same]⟩
  simp [waitForResponse, h]

/-- Witness for `pending_entry_lifetime` on the empty client state and a
one-entry pending table. -/
theorem pending_entry_lifetime_witness :
    dictGet (sendQuery {} "q1" true).1.pending_requests "q1" = some false ∧
    (waitForResponse { pending_requests := [("q1", true)] } "q1" true).1.pending_requests
        = [("q1", true)] :=
  ⟨(pending_entry_lifetime {} "q1").1,
    ((pending_entry_lifetime { pending_requests := [("q1", true)] } "q1").2.2.1
      { pending_requests := [("q1", true)] } true rfl).2⟩

/-- Claim C9 counterexample: with the executable and model present but the
protocol-config path missing, `start` proceeds to launch the process —
no error naming the missing config path is raised, refuting the claim that
a missing protocol-config file fails the call. -/
theorem start_launches_despite_missing_config :
    (fun p => p != "missing.cfg") "missing.cfg" = false ∧
    start (fun p => p != "missing.cfg") "katago.exe" "model.bin" "missing.cfg" 2 =
      .launch ["katago.exe", "analysis", "-model", "model.bin", "-config", "missing.cfg",
        "-analysis-threads", "2"] := by
  decide

/-- Claim C9 (amended): `start` validates only the executable path and the
model path — a missing one fails with an error naming it, before any
process is launched; when both exist the process is launched with the
configured command line, without checking the protocol-config path. -/
theorem start_validation (pathExists : String → Bool)
    (katago_path model_path config_path : String) (analysis_threads : Nat) :
    (pathExists katago_path = false →
      start pathExists katago_path model_path config_path analysis_threads =
        .fileNotFound ("KataGo executable not found: " ++ katago_path)) ∧
    (pathExists katago_path = true → pathExists model_path = false →
      start pathExists katago_path model_path config_path analysis_threads =
        .fileNotFound ("KataGo model not found: " ++ model_path)) ∧
    (pathExists katago_path = true → pathExists model_path = true →
      start pathExists katago_path model_path config_path analysis_threads =
        .launch [katago_path, "analysis", "-model", model_path, "-config", config_path,
          "-analysis-threads", toString analysis_threads]) := by
  refine ⟨fun h₁ => by simp [start, h₁], fun h₁ h₂ => by simp [start, h₁, h₂],
    fun h₁ h₂ => by simp [start, h₁, h₂]⟩

/-- Witness for `start_validation`: a missing executable fails naming it. -/
theorem start_validation_witness :
    start (fun _ => false) "kg" "m" "c" 1 =
      .fileNotFound ("KataGo executable not found: " ++ "kg") :=
  (start_validation (fun _ => false) "kg" "m" "c" 1).1 rfl

/-- Claim C10: a successfully parsed reply whose `id` field is absent or
empty leaves the whole client state unchanged — nothing is cached and no
wait handle is signalled. -/
theorem reader_ignores_id_free_reply (st : ClientState) (response : RawResponse)
    (h : response.id = none ∨ response.id = some "") :
    processLine st (.valid response) = st := by
  rcases h with h | h <;> simp [processLine, h]

/-- Witness for `reader_ignores_id_free_reply`: an id-less reply and an
empty-id reply are both discarded. -/
theorem reader_ignores_id_free_reply_witness :
    processLine {} (.valid {}) = {} ∧
    processLine {} (.valid { id := some "" }) = {} :=
  ⟨reader_ignores_id_free_reply {} {} (Or.inl rfl),
    reader_ignores_id_free_reply {} { id := some "" } (Or.inr rfl)⟩

end KataGoMCP
